import Mathlib

/-!
Shallow embedding of the access-control and entity-lifecycle core of the
JiraProj backend (Express + Mongoose project-management API).

Documents are embedded as Lean structures; the Mongo collections become
lists inside a `Store`; each Express handler becomes a function from the
principal, the store and the request to a `Resp` (HTTP status + success
flag of the response envelope) and the updated store.  Mongoose object ids
are modelled as `Nat`; dates as integers; the JS string roles are kept as
strings.  JS truthiness on optional string fields (`x || d`, `if (x)`)
is modelled by `strOr` (an empty string counts as absent).
-/

namespace JiraProj

/-- A project membership entry (`project.members[i]`): user id and
project-scoped role string (`'Project Manager'` or `'Team Member'`). -/
structure Member where
  user : Nat
  role : String
deriving DecidableEq, Repr

/-- A Project document (models/Project.js `projectSchema`). -/
structure Project where
  id : Nat
  name : String
  description : String
  createdBy : Nat
  members : List Member
  status : String
  startDate : Int
  endDate : Int
  isActive : Bool
deriving DecidableEq, Repr

/-- An embedded task comment (`task.comments[i]`): author id and text. -/
structure TaskComment where
  user : Nat
  text : String
deriving DecidableEq, Repr

/-- A Task document (models/Task.js `taskSchema`). -/
structure Task where
  id : Nat
  title : String
  description : String
  project : Nat
  sprint : Option Nat
  status : String
  priority : String
  assignedTo : Option Nat
  createdBy : Nat
  dueDate : Int
  estimatedHours : Int
  actualHours : Int
  position : Int
  comments : List TaskComment
  isActive : Bool
deriving DecidableEq, Repr

/-- A Sprint document (`sprintSchema`). -/
structure Sprint where
  id : Nat
  name : String
  description : String
  project : Nat
  startDate : Int
  endDate : Int
  goal : String
  status : String
  createdBy : Nat
  isActive : Bool
deriving DecidableEq, Repr

/-- The authenticated principal (`req.user`): id and global role string. -/
structure Principal where
  id : Nat
  role : String
deriving DecidableEq, Repr

/-- The backing document store: one list per collection, plus a fresh-id
counter modelling Mongo object-id generation for newly created documents. -/
structure Store where
  projects : List Project
  tasks : List Task
  sprints : List Sprint
  nextId : Nat
deriving DecidableEq, Repr

/-- The observable part of a handler response: HTTP status code and the
`success` flag of the uniform response envelope. -/
structure Resp where
  status : Nat
  success : Bool
deriving DecidableEq, Repr

def ok200 : Resp := ⟨200, true⟩
def created201 : Resp := ⟨201, true⟩
def badRequest400 : Resp := ⟨400, false⟩
def forbidden403 : Resp := ⟨403, false⟩
def notFound404 : Resp := ⟨404, false⟩
def serverError500 : Resp := ⟨500, false⟩

/-- `Project.findById` over the store. -/
def findProject (s : Store) (pid : Nat) : Option Project :=
  s.projects.find? (fun p => p.id == pid)

/-- `Task.findById` over the store. -/
def findTask (s : Store) (tid : Nat) : Option Task :=
  s.tasks.find? (fun t => t.id == tid)

/-- `Sprint.findById` over the store. -/
def findSprint (s : Store) (sid : Nat) : Option Sprint :=
  s.sprints.find? (fun sp => sp.id == sid)

/-- `project.members.some(m => m.user.toString() === req.user.id)` —
the membership test repeated in every controller. -/
def isMember (uid : Nat) (p : Project) : Bool :=
  p.members.any (fun m => m.user == uid)

/-- `project.createdBy.toString() === req.user.id`. -/
def isCreator (uid : Nat) (p : Project) : Bool :=
  p.createdBy == uid

/-- `project.members.some(m => m.user === uid && m.role === 'Project Manager')`
— the project-scoped manager test used by projectController and the task
controller's updateTask. -/
def isPM (uid : Nat) (p : Project) : Bool :=
  p.members.any (fun m => m.user == uid && m.role == "Project Manager")

/-- The `isProjectManager` middleware (middleware/auth.js): passes exactly
when the principal's GLOBAL role is the string `'Project Manager'`;
project-scoped roles are never consulted here. -/
def isProjectManagerMw (u : Principal) : Bool :=
  u.role == "Project Manager"

/-- JS `x || d` / `if (x)` truthiness for an optional string field:
absent or empty means the default applies. -/
def strOr (v : Option String) (d : String) : String :=
  match v with
  | some s => if s = "" then d else s
  | none => d

/-- `document.save()` / `findByIdAndUpdate` for a project: the document
with the same id is replaced by the updated document. -/
def replaceProject (s : Store) (p2 : Project) : Store :=
  { s with projects := s.projects.map (fun q => if q.id == p2.id then p2 else q) }

/-- `document.save()` / `findByIdAndUpdate` for a task. -/
def replaceTask (s : Store) (t2 : Task) : Store :=
  { s with tasks := s.tasks.map (fun x => if x.id == t2.id then t2 else x) }

/-- `document.save()` / `findByIdAndUpdate` for a sprint. -/
def replaceSprint (s : Store) (sp2 : Sprint) : Store :=
  { s with sprints := s.sprints.map (fun x => if x.id == sp2.id then sp2 else x) }

/-- GET /api/projects/:id (projectController.getProject): 404 when
missing, 403 when the principal is neither member nor creator. -/
def getProject (u : Principal) (s : Store) (pid : Nat) : Resp :=
  match findProject s pid with
  | none => notFound404
  | some p =>
    if !(isMember u.id p) && !(isCreator u.id p) then forbidden403 else ok200

/-- Body of PUT /api/projects/:id; each field is applied with JS
truthiness (`if (name) updateFields.name = name`); the date fields are
modelled as integers whose presence is the `Option`. -/
structure ProjectUpdateBody where
  name : Option String
  description : Option String
  status : Option String
  startDate : Option Int
  endDate : Option Int
deriving DecidableEq, Repr

/-- The `updateFields` assembly of projectController.updateProject. -/
def applyProjectUpdate (p : Project) (b : ProjectUpdateBody) : Project :=
  { p with
    name := strOr b.name p.name
    description := strOr b.description p.description
    status := strOr b.status p.status
    startDate := b.startDate.getD p.startDate
    endDate := b.endDate.getD p.endDate }

/-- PUT /api/projects/:id (projectController.updateProject): 404 when
missing; 403 unless the principal is the creator or holds the
Project Manager project-role. -/
def updateProject (u : Principal) (s : Store) (pid : Nat) (b : ProjectUpdateBody) :
    Resp × Store :=
  match findProject s pid with
  | none => (notFound404, s)
  | some p =>
    if !(isCreator u.id p) && !(isPM u.id p) then (forbidden403, s)
    else (ok200, replaceProject s (applyProjectUpdate p b))

/-- The per-task cascade step of project deletion:
`Task.updateMany({ project: id }, { isActive: false })`. -/
def deactivateIfInProject (pid : Nat) (t : Task) : Task :=
  if t.project == pid then { t with isActive := false } else t

/-- DELETE /api/projects/:id (projectController.deleteProject): only the
creator may delete; the project is soft-deleted and every task of the
project is deactivated. -/
def deleteProject (u : Principal) (s : Store) (pid : Nat) : Resp × Store :=
  match findProject s pid with
  | none => (notFound404, s)
  | some p =>
    if p.createdBy != u.id then (forbidden403, s)
    else
      let s1 := replaceProject s { p with isActive := false }
      (ok200, { s1 with tasks := s1.tasks.map (deactivateIfInProject pid) })

/-- The active tasks of a project, as counted by
`Task.countDocuments({ project, isActive: true })`. -/
def activeProjectTasks (s : Store) (pid : Nat) : List Task :=
  s.tasks.filter (fun t => t.project == pid && t.isActive)

/-- `totalTasks` of projectController.getProjectStats. -/
def totalTasksOf (s : Store) (pid : Nat) : Nat :=
  (activeProjectTasks s pid).length

/-- `completedTasks` of projectController.getProjectStats. -/
def completedTasksOf (s : Store) (pid : Nat) : Nat :=
  ((activeProjectTasks s pid).filter (fun t => t.status == "Done")).length

/-- The completion-rate formula shared by projectController.getProjectStats
and analyticsController.getDashboardAnalytics:
`totalTasks > 0 ? Math.round((completedTasks / totalTasks) * 100) : 0`,
with the JS arithmetic read exactly over the rationals (`Math.round`
is Mathlib's `round`, that is floor of the argument plus one half). -/
def jsCompletionRate (completed total : Nat) : Int :=
  if total > 0 then round (((completed : ℚ) / total) * 100) else 0

/-- The `completionPercentage` field of the getProjectStats payload. -/
def completionPercentageOf (s : Store) (pid : Nat) : Int :=
  jsCompletionRate (completedTasksOf s pid) (totalTasksOf s pid)

/-- GET /api/projects/:id/stats (projectController.getProjectStats):
404 when missing, 403 when neither member nor creator, 200 otherwise. -/
def getProjectStats (u : Principal) (s : Store) (pid : Nat) : Resp :=
  match findProject s pid with
  | none => notFound404
  | some p =>
    if !(isMember u.id p) && !(isCreator u.id p) then forbidden403 else ok200

/-- Body of POST /api/tasks/project/:projectId (taskController.createTask).
`priority || 'Medium'`, `status || 'To Do'`, `estimatedHours || 0` use JS
truthiness; `assignedTo || null` and `sprint || null` keep the option. -/
structure CreateTaskBody where
  title : String
  description : String
  priority : Option String
  status : Option String
  assignedTo : Option Nat
  dueDate : Int
  sprint : Option Nat
  estimatedHours : Option Int
deriving DecidableEq, Repr

/-- `Task.findOne({ project: projectId }).sort('-position').position`:
the greatest position among the tasks of the project (active or not),
`none` when the project has no tasks. -/
def maxPosition : List Task → Nat → Option Int
  | [], _ => none
  | t :: ts, pid =>
    let rest := maxPosition ts pid
    if t.project == pid then
      match rest with
      | none => some t.position
      | some m => some (max t.position m)
    else rest

/-- The Task document built by taskController.createTask: position is
`highestPositionTask ? highestPositionTask.position + 1 : 0`; schema
defaults fill `actualHours`, `comments` and `isActive`. -/
def newTaskOf (u : Principal) (s : Store) (pid : Nat) (b : CreateTaskBody) : Task :=
  { id := s.nextId
    title := b.title
    description := b.description
    project := pid
    sprint := b.sprint
    status := strOr b.status "To Do"
    priority := strOr b.priority "Medium"
    assignedTo := b.assignedTo
    createdBy := u.id
    dueDate := b.dueDate
    estimatedHours := b.estimatedHours.getD 0
    actualHours := 0
    position :=
      match maxPosition s.tasks pid with
      | none => 0
      | some m => m + 1
    comments := []
    isActive := true }

/-- POST /api/tasks/project/:projectId handler (taskController.createTask):
404 when the project is missing, otherwise the new task is created; the
handler itself performs NO membership or role check. -/
def createTask (u : Principal) (s : Store) (pid : Nat) (b : CreateTaskBody) :
    Resp × Store :=
  match findProject s pid with
  | none => (notFound404, s)
  | some _ =>
    (created201,
      { s with tasks := s.tasks ++ [newTaskOf u s pid b], nextId := s.nextId + 1 })

/-- The task-creation route (taskRoutes.js):
`post(isProjectManager, ..., createTask)` — the global-role middleware
runs before the handler. -/
def createTaskRoute (u : Principal) (s : Store) (pid : Nat) (b : CreateTaskBody) :
    Resp × Store :=
  if isProjectManagerMw u then createTask u s pid b else (forbidden403, s)

/-- Body of PUT /api/tasks/:id. A `some` of the outer option is a field
present in `req.body` (JS `!== undefined`); for `assignedTo` and `sprint`
the inner option distinguishes an explicit null. -/
structure TaskUpdateBody where
  title : Option String
  description : Option String
  status : Option String
  priority : Option String
  assignedTo : Option (Option Nat)
  dueDate : Option Int
  sprint : Option (Option Nat)
  estimatedHours : Option Int
  actualHours : Option Int
deriving DecidableEq, Repr

/-- The `allowedFields`/`updateFields` logic of taskController.updateTask:
with manager rights every supplied field is applied; otherwise only
`status` and `actualHours` are applied and the rest are dropped. -/
def applyTaskUpdate (t : Task) (b : TaskUpdateBody) (managerFields : Bool) : Task :=
  if managerFields then
    { t with
      title := b.title.getD t.title
      description := b.description.getD t.description
      status := b.status.getD t.status
      priority := b.priority.getD t.priority
      assignedTo := b.assignedTo.getD t.assignedTo
      dueDate := b.dueDate.getD t.dueDate
      sprint := b.sprint.getD t.sprint
      estimatedHours := b.estimatedHours.getD t.estimatedHours
      actualHours := b.actualHours.getD t.actualHours }
  else
    { t with
      status := b.status.getD t.status
      actualHours := b.actualHours.getD t.actualHours }

/-- PUT /api/tasks/:id (taskController.updateTask): 404 when the task is
missing; resolves the owning project (a dangling project reference would
crash the JS handler, modelled as 500); 403 when the principal is neither
member nor creator; manager rights are the global role OR the
Project Manager project-role. -/
def updateTask (u : Principal) (s : Store) (tid : Nat) (b : TaskUpdateBody) :
    Resp × Store :=
  match findTask s tid with
  | none => (notFound404, s)
  | some t =>
    match findProject s t.project with
    | none => (serverError500, s)
    | some p =>
      if !(isMember u.id p) && !(isCreator u.id p) then (forbidden403, s)
      else
        let managerFields := u.role == "Project Manager" || isPM u.id p
        (ok200, replaceTask s (applyTaskUpdate t b managerFields))

/-- PATCH /api/tasks/:id/status (taskController.updateTaskStatus): sets
status and, when supplied, position.  The handler never consults the
principal, the owning project, or any membership information. -/
def updateTaskStatus (u : Principal) (s : Store) (tid : Nat)
    (status : String) (position : Option Int) : Resp × Store :=
  match findTask s tid with
  | none => (notFound404, s)
  | some t =>
    (ok200, replaceTask s { t with status := status, position := position.getD t.position })

/-- DELETE /api/tasks/:id handler (taskController.deleteTask): soft
delete; the handler itself performs no membership or role check. -/
def deleteTask (u : Principal) (s : Store) (tid : Nat) : Resp × Store :=
  match findTask s tid with
  | none => (notFound404, s)
  | some t => (ok200, replaceTask s { t with isActive := false })

/-- The task-deletion route (taskRoutes.js):
`delete(isProjectManager, deleteTask)`. -/
def deleteTaskRoute (u : Principal) (s : Store) (tid : Nat) : Resp × Store :=
  if isProjectManagerMw u then deleteTask u s tid else (forbidden403, s)

/-- POST /api/tasks/:id/comments (taskController.addComment): appends a
comment authored by the principal; no membership or role check. -/
def addComment (u : Principal) (s : Store) (tid : Nat) (text : String) :
    Resp × Store :=
  match findTask s tid with
  | none => (notFound404, s)
  | some t =>
    (ok200, replaceTask s { t with comments := t.comments ++ [⟨u.id, text⟩] })

/-- GET /api/sprints/:id (sprintController.getSprint): 404 when missing;
access is checked through the owning project (member or creator). -/
def getSprint (u : Principal) (s : Store) (sid : Nat) : Resp :=
  match findSprint s sid with
  | none => notFound404
  | some sp =>
    match findProject s sp.project with
    | none => serverError500
    | some p =>
      if !(isMember u.id p) && !(isCreator u.id p) then forbidden403 else ok200

/-- Body of POST /api/sprints/project/:projectId. -/
structure CreateSprintBody where
  name : String
  description : String
  startDate : Int
  endDate : Int
  goal : String
deriving DecidableEq, Repr

/-- POST /api/sprints/project/:projectId handler
(sprintController.createSprint): 404 when the project is missing; the
Sprint schema validator requires the end date strictly after the start
date (a Mongoose ValidationError, surfaced as 400); the handler performs
no membership check of its own. -/
def createSprint (u : Principal) (s : Store) (pid : Nat) (b : CreateSprintBody) :
    Resp × Store :=
  match findProject s pid with
  | none => (notFound404, s)
  | some _ =>
    if b.endDate ≤ b.startDate then (badRequest400, s)
    else
      (created201,
        { s with
          sprints := s.sprints ++
            [{ id := s.nextId, name := b.name, description := b.description,
               project := pid, startDate := b.startDate, endDate := b.endDate,
               goal := b.goal, status := "Planning", createdBy := u.id,
               isActive := true }]
          nextId := s.nextId + 1 })

/-- The sprint-creation route (sprintRoutes.js):
`post(isProjectManager, ..., createSprint)`. -/
def createSprintRoute (u : Principal) (s : Store) (pid : Nat) (b : CreateSprintBody) :
    Resp × Store :=
  if isProjectManagerMw u then createSprint u s pid b else (forbidden403, s)

/-- Body of PUT /api/sprints/:id; `name`, `startDate`, `endDate`, `status`
use JS truthiness (`if (x)`), `description` and `goal` are applied
whenever defined (`!== undefined`); dates modelled as integers whose
presence is the `Option`. -/
structure SprintUpdateBody where
  name : Option String
  description : Option String
  startDate : Option Int
  endDate : Option Int
  goal : Option String
  status : Option String
deriving DecidableEq, Repr

/-- The `updateFields` assembly of sprintController.updateSprint. -/
def applySprintUpdate (sp : Sprint) (b : SprintUpdateBody) : Sprint :=
  { sp with
    name := strOr b.name sp.name
    description := b.description.getD sp.description
    startDate := b.startDate.getD sp.startDate
    endDate := b.endDate.getD sp.endDate
    goal := b.goal.getD sp.goal
    status := strOr b.status sp.status }

/-- PUT /api/sprints/:id handler (sprintController.updateSprint): 404 when
missing, otherwise applies the update — no membership check of its own. -/
def updateSprint (u : Principal) (s : Store) (sid : Nat) (b : SprintUpdateBody) :
    Resp × Store :=
  match findSprint s sid with
  | none => (notFound404, s)
  | some sp => (ok200, replaceSprint s (applySprintUpdate sp b))

/-- The sprint-update route (sprintRoutes.js):
`put(isProjectManager, updateSprint)`. -/
def updateSprintRoute (u : Principal) (s : Store) (sid : Nat) (b : SprintUpdateBody) :
    Resp × Store :=
  if isProjectManagerMw u then updateSprint u s sid b else (forbidden403, s)

/-- The per-task cascade step of sprint deletion:
`Task.updateMany({ sprint: id }, { $unset: { sprint: 1 } })`. -/
def clearSprintRef (sid : Nat) (t : Task) : Task :=
  if t.sprint == some sid then { t with sprint := none } else t

/-- DELETE /api/sprints/:id handler (sprintController.deleteSprint): soft
deletes the sprint and clears the sprint reference on every task that
pointed to it; no membership check of its own. -/
def deleteSprint (u : Principal) (s : Store) (sid : Nat) : Resp × Store :=
  match findSprint s sid with
  | none => (notFound404, s)
  | some sp =>
    let s1 := replaceSprint s { sp with isActive := false }
    (ok200, { s1 with tasks := s1.tasks.map (clearSprintRef sid) })

/-- The sprint-deletion route (sprintRoutes.js):
`delete(isProjectManager, deleteSprint)`. -/
def deleteSprintRoute (u : Principal) (s : Store) (sid : Nat) : Resp × Store :=
  if isProjectManagerMw u then deleteSprint u s sid else (forbidden403, s)

/-- Body of POST /api/auth/register. -/
structure RegisterBody where
  name : String
  email : String
  password : String
  role : Option String
deriving DecidableEq, Repr

/-- A created User document, restricted to the fields the register claim
is about (models/User.js `userSchema`). -/
structure User where
  name : String
  email : String
  role : String
  isActive : Bool
deriving DecidableEq, Repr

/-- The `role` enum of the user schema:
`['Project Manager', 'Team Member']`. -/
def validRole (r : String) : Bool :=
  r == "Project Manager" || r == "Team Member"

/-- POST /api/auth/register (authController.register): 400 when the email
is taken; otherwise `User.create({..., role: role || 'Team Member'})`,
with the schema rejecting a role outside the enum (500 through the error
handler). -/
def register (existingEmails : List String) (b : RegisterBody) : Except Nat User :=
  if existingEmails.contains b.email then .error 400
  else
    let role := strOr b.role "Team Member"
    if validRole role then
      .ok { name := b.name, email := b.email, role := role, isActive := true }
    else .error 500

/-- The payload of the suggest-priority response. -/
structure PrioritySuggestion where
  priority : String
  reasoning : String
deriving DecidableEq, Repr

/-- Outcome of the opaque AI completion call inside suggestPriority:
either a parsed suggestion or any thrown error. -/
inductive AIOutcome
  | parsed (suggestion : PrioritySuggestion)
  | failed
deriving DecidableEq, Repr

/-- POST /api/ai/suggest-priority (aiController.suggestPriority),
parameterised by the outcome of the external AI call: on success a 200
envelope with the parsed suggestion; on any error the catch block sends
`status(500)` with `success: false` and the fallback payload
`{ priority: 'Medium', reasoning: 'Default priority assigned' }`. -/
def suggestPriority (ai : AIOutcome) : Resp × PrioritySuggestion :=
  match ai with
  | .parsed sug => (ok200, sug)
  | .failed =>
    (serverError500, { priority := "Medium", reasoning := "Default priority assigned" })

/-- The completion-rate formula as the spec states it: 0 when totalTasks
is 0 and round(100·completed/total) otherwise.  Stated from the spec's
words, for comparison with `jsCompletionRate` taken from the code. -/
def specCompletionRate (completed total : Nat) : Int :=
  if total = 0 then 0 else round ((100 * (completed : ℚ)) / total)

/-! ### Helper lemmas about the store primitives -/

/-- `find?` commutes with a map that does not change the predicate. -/
theorem find?_map_congr {α : Type} (f : α → α) (p : α → Bool)
    (hp : ∀ a, p (f a) = p a) :
    ∀ l : List α, (l.map f).find? p = (l.find? p).map f := by
  intro l
  induction l with
  | nil => rfl
  | cons a l ih =>
    by_cases h : p a = true
    · rw [List.map_cons, List.find?_cons_of_pos _ (by rw [hp]; exact h),
        List.find?_cons_of_pos _ h, Option.map_some']
    · rw [List.map_cons, List.find?_cons_of_neg _ (by rw [hp]; exact h),
        List.find?_cons_of_neg _ h, ih]

/-- Replacing the document with a given key by a document with the same
key makes `find?` on that key return the replacement. -/
theorem find?_replace_by_id {α : Type} (key : α → Nat) (l : List α) (k : Nat)
    (a b : α) (ha : l.find? (fun x => key x == k) = some a) (hid : key b = key a) :
    (l.map (fun x => if key x == key b then b else x)).find?
      (fun x => key x == k) = some b := by
  have hak : key a = k := by simpa using List.find?_some ha
  have hcong : ∀ x, ((fun x => key x == k) ((fun x => if key x == key b then b else x) x))
      = ((fun x => key x == k) x) := by
    intro x
    by_cases hx : (key x == key b) = true
    · have hxb : key x = key b := by simpa using hx
      simp [hx, hid, hak, hxb]
    · simp [hx]
  rw [find?_map_congr _ _ hcong, ha, Option.map_some']
  simp [hid]

/-- `findTask` after `replaceTask` with an id-preserving update. -/
theorem findTask_replaceTask (s : Store) (tid : Nat) (t t2 : Task)
    (ht : findTask s tid = some t) (hid : t2.id = t.id) :
    findTask (replaceTask s t2) tid = some t2 :=
  find?_replace_by_id Task.id s.tasks tid t t2 ht hid

/-- `findProject` after `replaceProject` with an id-preserving update. -/
theorem findProject_replaceProject (s : Store) (pid : Nat) (p p2 : Project)
    (hp : findProject s pid = some p) (hid : p2.id = p.id) :
    findProject (replaceProject s p2) pid = some p2 :=
  find?_replace_by_id Project.id s.projects pid p p2 hp hid

/-- `findSprint` after `replaceSprint` with an id-preserving update. -/
theorem findSprint_replaceSprint (s : Store) (sid : Nat) (sp sp2 : Sprint)
    (hs : findSprint s sid = some sp) (hid : sp2.id = sp.id) :
    findSprint (replaceSprint s sp2) sid = some sp2 :=
  find?_replace_by_id Sprint.id s.sprints sid sp sp2 hs hid

/-- Every task of the project bounds `maxPosition` from below. -/
theorem maxPosition_le (pid : Nat) (t : Task) :
    ∀ ts : List Task, t ∈ ts → t.project = pid →
      ∃ m, maxPosition ts pid = some m ∧ t.position ≤ m := by
  intro ts
  induction ts with
  | nil => intro h; cases h
  | cons a ts ih =>
    intro hmem hproj
    rcases List.mem_cons.mp hmem with rfl | hmem2
    · have hb : (t.project == pid) = true := by simpa using hproj
      cases hrest : maxPosition ts pid with
      | none => exact ⟨t.position, by simp [maxPosition, hb, hrest], le_refl _⟩
      | some m =>
        exact ⟨max t.position m, by simp [maxPosition, hb, hrest], le_max_left _ _⟩
    · rcases ih hmem2 hproj with ⟨m, hm, hle⟩
      by_cases hb : (a.project == pid) = true
      · exact ⟨max a.position m, by simp [maxPosition, hb, hm],
          le_trans hle (le_max_right _ _)⟩
      · exact ⟨m, by simp [maxPosition, hb, hm], hle⟩

/-- `maxPosition` is attained by some task of the project. -/
theorem maxPosition_mem (pid : Nat) :
    ∀ ts : List Task, ∀ m, maxPosition ts pid = some m →
      ∃ t ∈ ts, t.project = pid ∧ t.position = m := by
  intro ts
  induction ts with
  | nil => intro m h; cases h
  | cons a ts ih =>
    intro m h
    by_cases hb : (a.project == pid) = true
    · have hap : a.project = pid := by simpa using hb
      cases hrest : maxPosition ts pid with
      | none =>
        have : m = a.position := by
          rw [maxPosition, if_pos hb, hrest] at h
          exact (Option.some_inj.mp h).symm
        exact ⟨a, List.mem_cons_self a ts, hap, this.symm⟩
      | some m0 =>
        have hmax : m = max a.position m0 := by
          rw [maxPosition, if_pos hb, hrest] at h
          exact (Option.some_inj.mp h).symm
        rcases max_choice a.position m0 with hc | hc
        · exact ⟨a, List.mem_cons_self a ts, hap, by rw [hmax, hc]⟩
        · rcases ih m0 hrest with ⟨t, htm, htp, hpos⟩
          exact ⟨t, List.mem_cons_of_mem a htm, htp, by rw [hmax, hc, hpos]⟩
    · rw [maxPosition, if_neg hb] at h
      rcases ih m h with ⟨t, htm, htp, hpos⟩
      exact ⟨t, List.mem_cons_of_mem a htm, htp, hpos⟩

/-- When no task belongs to the project, `maxPosition` is `none`. -/
theorem maxPosition_eq_none (pid : Nat) :
    ∀ ts : List Task, (∀ t ∈ ts, t.project ≠ pid) → maxPosition ts pid = none := by
  intro ts
  induction ts with
  | nil => intro _; rfl
  | cons a ts ih =>
    intro h
    have hb : ¬ (a.project == pid) = true := by
      simpa using h a (List.mem_cons_self a ts)
    rw [maxPosition, if_neg hb]
    exact ih (fun t htm => h t (List.mem_cons_of_mem a htm))

/-! ### Concrete fixtures used by counterexamples and witnesses -/

/-- A principal who is neither the creator nor a member of `demoProject`. -/
def outsider : Principal := ⟨99, "Team Member"⟩

/-- A member (user 7, Team Member project-role) of `demoProject`. -/
def plainMember : Principal := ⟨7, "Team Member"⟩

/-- The creator (user 10) of `demoProject`. -/
def creatorTM : Principal := ⟨10, "Team Member"⟩

/-- A principal whose global role is Project Manager. -/
def managerPrincipal : Principal := ⟨10, "Project Manager"⟩

def demoProject : Project :=
  { id := 1, name := "P1", description := "d", createdBy := 10,
    members := [⟨10, "Project Manager"⟩, ⟨7, "Team Member"⟩],
    status := "Planning", startDate := 0, endDate := 10, isActive := true }

def demoTask : Task :=
  { id := 2, title := "T1", description := "d", project := 1, sprint := some 3,
    status := "To Do", priority := "Medium", assignedTo := none, createdBy := 10,
    dueDate := 5, estimatedHours := 0, actualHours := 0, position := 0,
    comments := [], isActive := true }

def demoSprint : Sprint :=
  { id := 3, name := "S1", description := "d", project := 1, startDate := 0,
    endDate := 10, goal := "g", status := "Planning", createdBy := 10,
    isActive := true }

def demoStore : Store :=
  { projects := [demoProject], tasks := [demoTask], sprints := [demoSprint],
    nextId := 4 }

def demoTaskUpdateBody : TaskUpdateBody :=
  { title := some "X", description := none, status := some "Done",
    priority := none, assignedTo := none, dueDate := none, sprint := none,
    estimatedHours := none, actualHours := some 4 }

def demoSprintUpdateBody : SprintUpdateBody :=
  { name := some "S1b", description := none, startDate := none,
    endDate := none, goal := none, status := none }

def demoProjectUpdateBody : ProjectUpdateBody :=
  { name := some "P1b", description := none, status := none,
    startDate := none, endDate := none }

def demoCreateTaskBody : CreateTaskBody :=
  { title := "T", description := "d", priority := none, status := none,
    assignedTo := none, dueDate := 5, sprint := none, estimatedHours := none }

def demoCreateSprintBody : CreateSprintBody :=
  { name := "S2", description := "d", startDate := 0, endDate := 10, goal := "g" }

/-- A principal whose global role is Team Member but who holds the
Project Manager project-role inside `demoProject2`. -/
def pmMember : Principal := ⟨5, "Team Member"⟩

def demoProject2 : Project :=
  { id := 1, name := "P2", description := "d", createdBy := 10,
    members := [⟨10, "Project Manager"⟩, ⟨5, "Project Manager"⟩],
    status := "Planning", startDate := 0, endDate := 10, isActive := true }

def demoStore2 : Store :=
  { projects := [demoProject2], tasks := [demoTask], sprints := [demoSprint],
    nextId := 7 }

/-! ### C1 -/

/-- The participant-gate behaviour of the write operations on tasks and
sprints, as the code actually implements it: only the full task update
denies a non-participant; status/position update and comment append
answer 200 to any authenticated principal; task deletion, sprint update
and sprint deletion answer according to the global role alone. -/
def WriteGateConcl (u : Principal) (s : Store) (tid sid : Nat)
    (b : TaskUpdateBody) (sb : SprintUpdateBody) (st txt : String)
    (pos : Option Int) : Prop :=
  (updateTask u s tid b).1 = forbidden403 ∧
  (updateTask u s tid b).2 = s ∧
  (updateTaskStatus u s tid st pos).1 = ok200 ∧
  (addComment u s tid txt).1 = ok200 ∧
  (deleteTaskRoute u s tid).1.status =
    (if u.role = "Project Manager" then 200 else 403) ∧
  (updateSprintRoute u s sid sb).1.status =
    (if u.role = "Project Manager" then 200 else 403) ∧
  (deleteSprintRoute u s sid).1.status =
    (if u.role = "Project Manager" then 200 else 403) ∧
  (u.role ≠ "Project Manager" →
    (deleteTaskRoute u s tid).2 = s ∧
    (updateSprintRoute u s sid sb).2 = s ∧
    (deleteSprintRoute u s sid).2 = s)

/-- C1 (counterexample): a principal who is neither the creator nor in
the membership list of the owning project performs the status/position
update on a task of that project; the request succeeds with 200 and the
task's stored status changes — the claimed Forbidden/state-unchanged
behaviour does not hold. -/
theorem C1_counterexample :
    isMember outsider.id demoProject = false ∧
    isCreator outsider.id demoProject = false ∧
    demoTask.project = demoProject.id ∧
    (updateTaskStatus outsider demoStore 2 "Done" none).1.status = 200 ∧
    findTask (updateTaskStatus outsider demoStore 2 "Done" none).2 2 =
      some { demoTask with status := "Done" } := by
  decide

/-- C1 (amended): for a principal who is neither the owning project's
creator nor in its membership list, only the full task update is denied
(403, store unchanged); the status/position update and the comment
append succeed for any authenticated principal, and the task soft
delete, sprint update and sprint soft delete are gated only by the
global role (200 for a global Project Manager, 403 otherwise, the store
unchanged when denied) — project participation is never consulted by
those five operations. -/
theorem C1_amended (u : Principal) (s : Store) (tid sid : Nat)
    (b : TaskUpdateBody) (sb : SprintUpdateBody) (st txt : String)
    (pos : Option Int) (t : Task) (p : Project) (sp : Sprint)
    (ht : findTask s tid = some t) (hp : findProject s t.project = some p)
    (hs : findSprint s sid = some sp)
    (hm : isMember u.id p = false) (hc : isCreator u.id p = false) :
    WriteGateConcl u s tid sid b sb st txt pos := by
  refine ⟨?_, ?_, ?_, ?_, ?_, ?_, ?_, ?_⟩
  · simp [updateTask, ht, hp, hm, hc]
  · simp [updateTask, ht, hp, hm, hc]
  · simp [updateTaskStatus, ht]
  · simp [addComment, ht]
  · by_cases hr : u.role = "Project Manager"
    · simp [deleteTaskRoute, isProjectManagerMw, hr, deleteTask, ht, ok200]
    · simp [deleteTaskRoute, isProjectManagerMw, beq_iff_eq, hr, forbidden403]
  · by_cases hr : u.role = "Project Manager"
    · simp [updateSprintRoute, isProjectManagerMw, hr, updateSprint, hs, ok200]
    · simp [updateSprintRoute, isProjectManagerMw, beq_iff_eq, hr, forbidden403]
  · by_cases hr : u.role = "Project Manager"
    · simp [deleteSprintRoute, isProjectManagerMw, hr, deleteSprint, hs, ok200]
    · simp [deleteSprintRoute, isProjectManagerMw, beq_iff_eq, hr, forbidden403]
  · intro hr
    refine ⟨?_, ?_, ?_⟩ <;>
      simp [deleteTaskRoute, updateSprintRoute, deleteSprintRoute,
        isProjectManagerMw, beq_iff_eq, hr]

/-- C1 (witness): the amended statement evaluated on the concrete store:
the outsider principal against task 2 and sprint 3 of `demoStore`. -/
theorem C1_amended_witness :
    WriteGateConcl outsider demoStore 2 3 demoTaskUpdateBody
      demoSprintUpdateBody "Done" "hi" none :=
  C1_amended outsider demoStore 2 3 demoTaskUpdateBody demoSprintUpdateBody
    "Done" "hi" none demoTask demoProject demoSprint
    (by decide) (by decide) (by decide) (by decide) (by decide)

/-! ### C2 -/

/-- The manager gate for task/sprint creation and deletion consults only
the global role: 403 exactly when the global role is not
Project Manager, and the store is untouched when denied. -/
def ManagerGateConcl (u : Principal) (s : Store) (pid tid sid : Nat)
    (cb : CreateTaskBody) (sb : CreateSprintBody) : Prop :=
  ((createTaskRoute u s pid cb).1.status = 403 ↔ u.role ≠ "Project Manager") ∧
  ((deleteTaskRoute u s tid).1.status = 403 ↔ u.role ≠ "Project Manager") ∧
  ((createSprintRoute u s pid sb).1.status = 403 ↔ u.role ≠ "Project Manager") ∧
  ((deleteSprintRoute u s sid).1.status = 403 ↔ u.role ≠ "Project Manager") ∧
  (u.role ≠ "Project Manager" →
    (createTaskRoute u s pid cb).2 = s ∧ (deleteTaskRoute u s tid).2 = s ∧
    (createSprintRoute u s pid sb).2 = s ∧ (deleteSprintRoute u s sid).2 = s)

/-- C2 (counterexample): a principal whose global role is Team Member
and who holds the Project Manager project-role inside the target
project is nevertheless denied (403) at task creation, task deletion
and sprint creation/deletion, with the store unchanged — the claimed
"either condition suffices" does not hold. -/
theorem C2_counterexample :
    pmMember.role = "Team Member" ∧
    isPM pmMember.id demoProject2 = true ∧
    findProject demoStore2 1 = some demoProject2 ∧
    (createTaskRoute pmMember demoStore2 1 demoCreateTaskBody).1.status = 403 ∧
    (createTaskRoute pmMember demoStore2 1 demoCreateTaskBody).2 = demoStore2 ∧
    (deleteTaskRoute pmMember demoStore2 2).1.status = 403 ∧
    (createSprintRoute pmMember demoStore2 1 demoCreateSprintBody).1.status = 403 ∧
    (deleteSprintRoute pmMember demoStore2 3).1.status = 403 := by
  decide

/-- C2 (amended): the `isProjectManager` middleware guarding task and
sprint creation and deletion consults only the principal's global role:
the gate denies (403, store unchanged) exactly when the global role is
not Project Manager, so a global Project Manager always passes and a
global Team Member is denied even when holding the Project Manager
project-role within the target project. -/
theorem C2_amended (u : Principal) (s : Store) (pid tid sid : Nat)
    (cb : CreateTaskBody) (sb : CreateSprintBody) :
    ManagerGateConcl u s pid tid sid cb sb := by
  by_cases hr : u.role = "Project Manager"
  · have hmw : isProjectManagerMw u = true := by simp [isProjectManagerMw, hr]
    refine ⟨?_, ?_, ?_, ?_, fun hne => absurd hr hne⟩
    · simp only [createTaskRoute, hmw, if_true]
      cases hfp : findProject s pid with
      | none => simp [createTask, hfp, notFound404, hr]
      | some p => simp [createTask, hfp, created201, hr]
    · simp only [deleteTaskRoute, hmw, if_true]
      cases hft : findTask s tid with
      | none => simp [deleteTask, hft, notFound404, hr]
      | some t => simp [deleteTask, hft, ok200, hr]
    · simp only [createSprintRoute, hmw, if_true]
      cases hfp : findProject s pid with
      | none => simp [createSprint, hfp, notFound404, hr]
      | some p =>
        by_cases hd : sb.endDate ≤ sb.startDate
        · simp [createSprint, hfp, hd, badRequest400, hr]
        · simp [createSprint, hfp, hd, created201, hr]
    · simp only [deleteSprintRoute, hmw, if_true]
      cases hfs : findSprint s sid with
      | none => simp [deleteSprint, hfs, notFound404, hr]
      | some sp => simp [deleteSprint, hfs, ok200, hr]
  · have hmw : isProjectManagerMw u = false := by
      simp [isProjectManagerMw, beq_iff_eq]; exact hr
    refine ⟨?_, ?_, ?_, ?_, fun _ => ?_⟩ <;>
      simp [createTaskRoute, deleteTaskRoute, createSprintRoute,
        deleteSprintRoute, hmw, forbidden403, hr]

/-- C2 (witness): the amended statement evaluated on the concrete store
with the Team-Member principal holding the project-PM role. -/
theorem C2_amended_witness :
    ManagerGateConcl pmMember demoStore2 1 2 3 demoCreateTaskBody
      demoCreateSprintBody :=
  C2_amended pmMember demoStore2 1 2 3 demoCreateTaskBody demoCreateSprintBody

/-! ### C3 -/

/-- Creator access: every project-scoped gate answers 200 for the
creator (project read, project update, project stats, task full update,
sprint read). -/
def CreatorAccessConcl (u : Principal) (s : Store) (pid tid sid : Nat)
    (pb : ProjectUpdateBody) (tb : TaskUpdateBody) : Prop :=
  getProject u s pid = ok200 ∧
  (updateProject u s pid pb).1 = ok200 ∧
  getProjectStats u s pid = ok200 ∧
  (updateTask u s tid tb).1 = ok200 ∧
  getSprint u s sid = ok200

/-- C3 (confirmed): a principal equal to the project's creator passes
every project-scoped access gate — project read, project update,
project stats, task update and sprint read — whatever the
membership list contains (it is universally quantified here, so the
creator may well be absent from it). -/
theorem C3_creator_always_authorized (u : Principal) (s : Store)
    (pid tid sid : Nat) (p : Project) (t : Task) (sp : Sprint)
    (pb : ProjectUpdateBody) (tb : TaskUpdateBody)
    (hp : findProject s pid = some p) (hcr : p.createdBy = u.id)
    (ht : findTask s tid = some t) (htp : t.project = pid)
    (hs : findSprint s sid = some sp) (hsp : sp.project = pid) :
    CreatorAccessConcl u s pid tid sid pb tb := by
  have hcrb : isCreator u.id p = true := by simp [isCreator, hcr]
  have hp2 : findProject s t.project = some p := by rw [htp]; exact hp
  have hp3 : findProject s sp.project = some p := by rw [hsp]; exact hp
  refine ⟨?_, ?_, ?_, ?_, ?_⟩
  · simp [getProject, hp, hcrb]
  · simp [updateProject, hp, hcrb]
  · simp [getProjectStats, hp, hcrb]
  · simp [updateTask, ht, hp2, hcrb]
  · simp [getSprint, hs, hp3, hcrb]

/-- C3 (witness): the creator of `demoProject` (user 10, global role
Team Member) passes all five gates on the concrete store. -/
theorem C3_witness :
    CreatorAccessConcl creatorTM demoStore 1 2 3 demoProjectUpdateBody
      demoTaskUpdateBody :=
  C3_creator_always_authorized creatorTM demoStore 1 2 3 demoProject demoTask
    demoSprint demoProjectUpdateBody demoTaskUpdateBody
    (by decide) (by decide) (by decide) (by decide) (by decide) (by decide)

/-! ### C4 -/

/-- Post-state of a successful project soft-delete: 200, the project
inactive, every task of the project inactive, every task of any other
project present unchanged, and no task removed. -/
def ProjectDeleteCascadeConcl (u : Principal) (s : Store) (pid : Nat)
    (p : Project) : Prop :=
  (deleteProject u s pid).1 = ok200 ∧
  findProject (deleteProject u s pid).2 pid = some { p with isActive := false } ∧
  (∀ t2 ∈ (deleteProject u s pid).2.tasks, t2.project = pid → t2.isActive = false) ∧
  (∀ t ∈ s.tasks, t.project ≠ pid → t ∈ (deleteProject u s pid).2.tasks) ∧
  (∀ t2 ∈ (deleteProject u s pid).2.tasks, t2.project ≠ pid → t2 ∈ s.tasks) ∧
  (deleteProject u s pid).2.tasks.length = s.tasks.length

/-- C4 (confirmed): after the creator soft-deletes a project, the
project's active flag is false, every task whose project reference
equals that project is inactive, and every task of any other project is
present unchanged (membership in both directions plus preserved
length). -/
theorem C4_project_delete_cascade (u : Principal) (s : Store) (pid : Nat)
    (p : Project) (hp : findProject s pid = some p)
    (hcr : p.createdBy = u.id) : ProjectDeleteCascadeConcl u s pid p := by
  have hres : deleteProject u s pid =
      (ok200, { replaceProject s { p with isActive := false } with
        tasks := s.tasks.map (deactivateIfInProject pid) }) := by
    simp [deleteProject, hp, hcr, replaceProject]
  have htasks : (deleteProject u s pid).2.tasks =
      s.tasks.map (deactivateIfInProject pid) := by rw [hres]
  refine ⟨by rw [hres], ?_, ?_, ?_, ?_, ?_⟩
  · rw [hres]
    exact find?_replace_by_id Project.id s.projects pid p
      { p with isActive := false } hp rfl
  · intro t2 hmem hproj
    rw [htasks] at hmem
    rcases List.mem_map.mp hmem with ⟨a, _, rfl⟩
    by_cases hb : (a.project == pid) = true
    · simp [deactivateIfInProject, hb]
    · exact absurd (by simpa [deactivateIfInProject, hb] using hproj)
        (by simpa using hb)
  · intro t htm hne
    rw [htasks]
    have hid : deactivateIfInProject pid t = t := by
      simp [deactivateIfInProject, beq_iff_eq, hne]
    exact hid ▸ List.mem_map_of_mem _ htm
  · intro t2 hmem hne
    rw [htasks] at hmem
    rcases List.mem_map.mp hmem with ⟨a, ha, rfl⟩
    by_cases hb : (a.project == pid) = true
    · have hap : a.project = pid := by simpa using hb
      have hpp : (deactivateIfInProject pid a).project = pid := by
        simp [deactivateIfInProject, hb, hap]
      exact absurd hpp hne
    · simpa [deactivateIfInProject, hb] using ha
  · rw [htasks]; exact List.length_map _ _

/-- C4 (witness): the creator deletes project 1 of the concrete store. -/
theorem C4_witness : ProjectDeleteCascadeConcl creatorTM demoStore 1 demoProject :=
  C4_project_delete_cascade creatorTM demoStore 1 demoProject
    (by decide) (by decide)

/-! ### C5 -/

/-- Post-state of a successful sprint soft-delete: 200, the sprint
inactive, every task that referenced the sprint present with only its
sprint reference cleared, every other task present unchanged, no task
referencing the sprint afterwards, and no task removed. -/
def SprintDeleteCascadeConcl (u : Principal) (s : Store) (sid : Nat)
    (sp : Sprint) : Prop :=
  (deleteSprintRoute u s sid).1 = ok200 ∧
  findSprint (deleteSprintRoute u s sid).2 sid = some { sp with isActive := false } ∧
  (∀ t ∈ s.tasks, t.sprint = some sid →
    { t with sprint := none } ∈ (deleteSprintRoute u s sid).2.tasks) ∧
  (∀ t ∈ s.tasks, t.sprint ≠ some sid → t ∈ (deleteSprintRoute u s sid).2.tasks) ∧
  (∀ t2 ∈ (deleteSprintRoute u s sid).2.tasks, t2.sprint ≠ some sid) ∧
  (deleteSprintRoute u s sid).2.tasks.length = s.tasks.length

/-- C5 (confirmed): after a successful sprint soft-delete the sprint is
inactive; every task whose sprint reference equalled the sprint id is
still present with the reference cleared and every other field
(including the active flag) unchanged; tasks that did not reference the
sprint are untouched; no task is removed by the cascade. -/
theorem C5_sprint_delete_cascade (u : Principal) (s : Store) (sid : Nat)
    (sp : Sprint) (hu : u.role = "Project Manager")
    (hs : findSprint s sid = some sp) : SprintDeleteCascadeConcl u s sid sp := by
  have hmw : isProjectManagerMw u = true := by simp [isProjectManagerMw, hu]
  have hres : deleteSprintRoute u s sid =
      (ok200, { replaceSprint s { sp with isActive := false } with
        tasks := s.tasks.map (clearSprintRef sid) }) := by
    simp [deleteSprintRoute, hmw, deleteSprint, hs, replaceSprint]
  have htasks : (deleteSprintRoute u s sid).2.tasks =
      s.tasks.map (clearSprintRef sid) := by rw [hres]
  refine ⟨by rw [hres], ?_, ?_, ?_, ?_, ?_⟩
  · rw [hres]
    exact find?_replace_by_id Sprint.id s.sprints sid sp
      { sp with isActive := false } hs rfl
  · intro t htm href
    rw [htasks]
    have hc : clearSprintRef sid t = { t with sprint := none } := by
      simp [clearSprintRef, href]
    exact hc ▸ List.mem_map_of_mem _ htm
  · intro t htm hne
    rw [htasks]
    have hb : ¬ (t.sprint == some sid) = true := by simpa using hne
    have hc : clearSprintRef sid t = t := by simp [clearSprintRef, hb]
    exact hc ▸ List.mem_map_of_mem _ htm
  · intro t2 hmem
    rw [htasks] at hmem
    rcases List.mem_map.mp hmem with ⟨a, _, rfl⟩
    by_cases hb : (a.sprint == some sid) = true
    · simp [clearSprintRef, hb]
    · have hca : clearSprintRef sid a = a := by simp [clearSprintRef, hb]
      rw [hca]
      simpa using hb
  · rw [htasks]; exact List.length_map _ _

/-- C5 (witness): a global Project Manager deletes sprint 3 of the
concrete store, whose task 2 references it. -/
theorem C5_witness : SprintDeleteCascadeConcl managerPrincipal demoStore 3 demoSprint :=
  C5_sprint_delete_cascade managerPrincipal demoStore 3 demoSprint
    (by decide) (by decide)

/-! ### C6 -/

/-- The position rule of task creation and its monotonicity over two
sequential creations in the same project. -/
def TaskPositionConcl (u : Principal) (s : Store) (pid : Nat)
    (b1 b2 : CreateTaskBody) : Prop :=
  ((∀ t ∈ s.tasks, t.project ≠ pid) → (newTaskOf u s pid b1).position = 0) ∧
  (∀ m, maxPosition s.tasks pid = some m →
    (newTaskOf u s pid b1).position = m + 1 ∧
    (∃ t ∈ s.tasks, t.project = pid ∧ t.position = m) ∧
    (∀ t ∈ s.tasks, t.project = pid → t.position ≤ m)) ∧
  (createTaskRoute u s pid b1).2.tasks = s.tasks ++ [newTaskOf u s pid b1] ∧
  (createTaskRoute u (createTaskRoute u s pid b1).2 pid b2).2.tasks =
    (createTaskRoute u s pid b1).2.tasks ++
      [newTaskOf u (createTaskRoute u s pid b1).2 pid b2] ∧
  (newTaskOf u (createTaskRoute u s pid b1).2 pid b2).position >
    (newTaskOf u s pid b1).position

/-- C6 (confirmed): task creation assigns position 0 when the project
has no tasks and 1 + the maximum existing position (attained and an
upper bound over the project's tasks) otherwise; creating two tasks in
sequence in the same project appends both and gives the second a
strictly greater position, independent of any status field. -/
theorem C6_task_position (u : Principal) (s : Store) (pid : Nat)
    (p : Project) (b1 b2 : CreateTaskBody) (hu : u.role = "Project Manager")
    (hp : findProject s pid = some p) : TaskPositionConcl u s pid b1 b2 := by
  have hmw : isProjectManagerMw u = true := by simp [isProjectManagerMw, hu]
  have h1 : createTaskRoute u s pid b1 =
      (created201,
        { s with
          tasks := s.tasks ++ [newTaskOf u s pid b1]
          nextId := s.nextId + 1 }) := by
    simp [createTaskRoute, hmw, createTask, hp]
  have hp0 : s.projects.find? (fun q => q.id == pid) = some p := hp
  have h2 : createTaskRoute u (createTaskRoute u s pid b1).2 pid b2 =
      (created201,
        { (createTaskRoute u s pid b1).2 with
          tasks := (createTaskRoute u s pid b1).2.tasks ++
            [newTaskOf u (createTaskRoute u s pid b1).2 pid b2]
          nextId := (createTaskRoute u s pid b1).2.nextId + 1 }) := by
    rw [h1]
    simp [createTaskRoute, hmw, createTask, findProject, hp0]
  refine ⟨?_, ?_, by rw [h1], by rw [h2], ?_⟩
  · intro h
    have hnone := maxPosition_eq_none pid s.tasks h
    simp [newTaskOf, hnone]
  · intro m hm
    refine ⟨by simp [newTaskOf, hm], maxPosition_mem pid s.tasks m hm, ?_⟩
    intro t htm htp
    rcases maxPosition_le pid t s.tasks htm htp with ⟨m2, hm2, hle⟩
    rw [hm] at hm2
    cases Option.some_inj.mp hm2
    exact hle
  · have hmem : newTaskOf u s pid b1 ∈ (createTaskRoute u s pid b1).2.tasks := by
      rw [h1]
      exact List.mem_append_right _ (List.mem_singleton.mpr rfl)
    rcases maxPosition_le pid (newTaskOf u s pid b1)
        (createTaskRoute u s pid b1).2.tasks hmem rfl with ⟨m1, hm1, hle⟩
    have hpos2 : (newTaskOf u (createTaskRoute u s pid b1).2 pid b2).position
        = m1 + 1 := by simp [newTaskOf, hm1]
    rw [hpos2]
    omega

/-- C6 (witness): two creations in project 1 of the concrete store,
whose only existing task sits at position 0: the first new task gets
position 1 and the second gets position 2. -/
theorem C6_witness : TaskPositionConcl managerPrincipal demoStore 1
    demoCreateTaskBody demoCreateTaskBody :=
  C6_task_position managerPrincipal demoStore 1 demoProject
    demoCreateTaskBody demoCreateTaskBody (by decide) (by decide)

/-! ### C7 -/

/-- A non-manager member's task update: 200, the stored task is the one
with exactly `status` and `actualHours` taken from the request, and
every other field of the stored task equals the previous value. -/
def MemberFieldRestrictionConcl (u : Principal) (s : Store) (tid : Nat)
    (b : TaskUpdateBody) (t : Task) : Prop :=
  (updateTask u s tid b).1 = ok200 ∧
  findTask (updateTask u s tid b).2 tid = some (applyTaskUpdate t b false) ∧
  (applyTaskUpdate t b false).status = b.status.getD t.status ∧
  (applyTaskUpdate t b false).actualHours = b.actualHours.getD t.actualHours ∧
  (applyTaskUpdate t b false).title = t.title ∧
  (applyTaskUpdate t b false).description = t.description ∧
  (applyTaskUpdate t b false).priority = t.priority ∧
  (applyTaskUpdate t b false).assignedTo = t.assignedTo ∧
  (applyTaskUpdate t b false).dueDate = t.dueDate ∧
  (applyTaskUpdate t b false).sprint = t.sprint ∧
  (applyTaskUpdate t b false).estimatedHours = t.estimatedHours ∧
  (applyTaskUpdate t b false).isActive = t.isActive ∧
  (applyTaskUpdate t b false).comments = t.comments

/-- C7 (confirmed): a task update by a project member who is globally a
Team Member and holds no Project Manager project-role is not rejected
(200); only the supplied `status` and `actualHours` are applied, and
every other field of the stored task — title, description, priority,
assignee, due date, sprint, estimated hours, active flag, comments — is
unchanged even when supplied in the request. -/
theorem C7_member_field_restriction (u : Principal) (s : Store) (tid : Nat)
    (b : TaskUpdateBody) (t : Task) (p : Project)
    (ht : findTask s tid = some t) (hp : findProject s t.project = some p)
    (hmem : isMember u.id p = true) (hrole : u.role = "Team Member")
    (hpm : isPM u.id p = false) :
    MemberFieldRestrictionConcl u s tid b t := by
  have hbeq : (u.role == "Project Manager") = false := by
    rw [hrole]; decide
  have hmf : (u.role == "Project Manager" || isPM u.id p) = false := by
    rw [hbeq, hpm]; rfl
  have hred : updateTask u s tid b =
      (ok200, replaceTask s (applyTaskUpdate t b false)) := by
    simp [updateTask, ht, hp, hmem, hmf]
  refine ⟨by rw [hred], ?_, ?_, ?_, ?_, ?_, ?_, ?_, ?_, ?_, ?_, ?_, ?_⟩
  · rw [hred]
    exact findTask_replaceTask s tid t (applyTaskUpdate t b false) ht rfl
  all_goals simp [applyTaskUpdate]

/-- C7 (witness): member 7 (global Team Member, no project-PM role)
sends a request carrying both a new title and a new status to task 2;
the status and actual hours change, the title does not. -/
theorem C7_witness : MemberFieldRestrictionConcl plainMember demoStore 2
    demoTaskUpdateBody demoTask :=
  C7_member_field_restriction plainMember demoStore 2 demoTaskUpdateBody
    demoTask demoProject (by decide) (by decide) (by decide) (by decide)
    (by decide)

/-! ### C8 -/

/-- C8 (confirmed): the completion rate of the code (the guarded
`Math.round((completed / total) * 100)` of getProjectStats and
getDashboardAnalytics, read over exact rational arithmetic) is 0 when
the total is 0 — the division is never evaluated in that case — and
equals the spec's round(100·completed/total) for every pair with
0 ≤ completed ≤ total. -/
theorem C8_completion_rate (completed total : Nat) (hle : completed ≤ total) :
    jsCompletionRate completed 0 = 0 ∧
    jsCompletionRate completed total = specCompletionRate completed total := by
  refine ⟨by simp [jsCompletionRate], ?_⟩
  rcases Nat.eq_zero_or_pos total with h0 | hpos
  · subst h0; simp [jsCompletionRate, specCompletionRate]
  · rw [jsCompletionRate, specCompletionRate, if_pos hpos,
      if_neg (Nat.pos_iff_ne_zero.mp hpos)]
    congr 1
    rw [div_mul_eq_mul_div, mul_comm]

/-- C8 (witness): 1 of 3 tasks done gives 33 on both readings. -/
theorem C8_witness :
    jsCompletionRate 1 0 = 0 ∧ jsCompletionRate 1 3 = specCompletionRate 1 3 :=
  C8_completion_rate 1 3 (by norm_num)

/-! ### C9 -/

/-- C9 (counterexample): when the AI call fails, suggestPriority answers
with `success = false` and HTTP 500 — not a success response as the
claim states (the fallback payload does carry priority Medium). -/
theorem C9_counterexample :
    (suggestPriority AIOutcome.failed).1.success = false ∧
    (suggestPriority AIOutcome.failed).1.status = 500 ∧
    (suggestPriority AIOutcome.failed).2.priority = "Medium" := by
  decide

/-- C9 (amended): when the external AI service fails during a priority
suggestion request, the failure is caught and converted to an error
response (HTTP 500, success false) whose payload still carries the
fallback with priority defaulted to Medium and the default reasoning
text; a parsed AI answer yields 200. -/
theorem C9_fallback_priority :
    (suggestPriority AIOutcome.failed).1 = serverError500 ∧
    (suggestPriority AIOutcome.failed).2 =
      { priority := "Medium", reasoning := "Default priority assigned" } ∧
    ∀ sug, (suggestPriority (AIOutcome.parsed sug)).1 = ok200 := by
  exact ⟨rfl, rfl, fun _ => rfl⟩

/-! ### C10 -/

/-- Registration applies the client-supplied role verbatim: with a
fresh email and role Project Manager the created user's global role is
Project Manager (and that role is exactly what the manager-only
middleware checks); with no role supplied the default is Team Member. -/
def RegisterRoleConcl (emails : List String) (b : RegisterBody) : Prop :=
  (b.role = some "Project Manager" →
    register emails b = Except.ok
      { name := b.name, email := b.email, role := "Project Manager",
        isActive := true } ∧
    ∀ uid : Nat, isProjectManagerMw ⟨uid, "Project Manager"⟩ = true) ∧
  (b.role = none →
    register emails b = Except.ok
      { name := b.name, email := b.email, role := "Team Member",
        isActive := true })

/-- C10 (confirmed): the public register endpoint stores the
client-supplied role verbatim — a request with a fresh email and role
Project Manager creates a user whose global role is Project Manager,
which is precisely the role the `isProjectManager` middleware admits,
while omitting the role defaults to Team Member. -/
theorem C10_register_role (emails : List String) (b : RegisterBody)
    (hfresh : emails.contains b.email = false) : RegisterRoleConcl emails b := by
  have hfresh2 : b.email ∉ emails := by simpa using hfresh
  constructor
  · intro hrole
    constructor
    · simp [register, hfresh2, hrole, strOr, validRole]
    · intro uid
      rfl
  · intro hrole
    simp [register, hfresh2, hrole, strOr, validRole]

/-- C10 (witness): registering a fresh email with role Project Manager
on a store that already holds one other email. -/
theorem C10_witness : RegisterRoleConcl ["x@y.z"]
    { name := "A", email := "a@b.c", password := "p",
      role := some "Project Manager" } :=
  C10_register_role ["x@y.z"]
    { name := "A", email := "a@b.c", password := "p",
      role := some "Project Manager" } (by decide)

end JiraProj
